import Mathlib

/-!
Verification of the SC6107 on-chain gaming platform (Treasury, DiceGame, Raffle).

The Solidity contracts are shallowly embedded:
* addresses are `Nat` (0 is the null address `address(0)`);
* a storage mapping is an association list read through `Store.get`,
  returning the slot's default value when a key was never written —
  exactly Solidity's zero-initialised storage semantics;
* `uint256` values are `Nat`; Solidity 0.8 checked arithmetic reverts
  on overflow, so every addition/multiplication on user-controlled
  `uint256` data is guarded by an explicit `< 2^256` check that reverts
  (a `Panic` error) on failure, and an explicit `uint64` cast is
  `% 2^64`;
* a reverting call is `.error e` of an `Except`; since an EVM revert
  rolls back every state change of the call, an `.error` result carries
  no post-state at all;
* external ETH transfers (`to.call{value: amount}("")`) succeed or fail
  according to an explicit `accepts : Nat → Bool` environment parameter
  describing which recipients accept plain value transfers.
-/

deriving instance DecidableEq for Except

/-- `uint256` modulus: Solidity 0.8 checked arithmetic reverts at this bound. -/
def U256 : Nat := 2 ^ 256

/-- `uint64` modulus: `uint64(block.timestamp)` truncates at this bound. -/
def U64 : Nat := 2 ^ 64

/-- A Solidity storage mapping with `Nat` keys, as an association list.
Reads of unwritten keys yield the supplied default (the zero value of the
slot type), matching zero-initialised EVM storage. -/
abbrev Store (β : Type) : Type := List (Nat × β)

namespace Store

/-- Read key `k`, with default `d` for never-written keys. -/
def get (s : Store β) (d : β) (k : Nat) : β :=
  match s.find? (fun p => p.1 == k) with
  | some p => p.2
  | none => d

/-- Write `v` at key `k`. -/
def set (s : Store β) (k : Nat) (v : β) : Store β :=
  (k, v) :: s

end Store

/-! ## Treasury (src/contracts/src/platform/Treasury.sol)

State variables: `isGame : mapping(address => bool)`, `maxPayoutPerTx`,
the OpenZeppelin `Pausable` flag, and the contract's native ETH balance.
Events are recorded newest-first. -/

/-- Events emitted by `Treasury.sol` (newest-first in the log list). -/
inductive TreasuryEvent
  | Deposited (sender amount : Nat)
  | GameAuthorized (game : Nat) (allowed : Bool)
  | MaxPayoutPerTxUpdated (maxPayoutPerTx : Nat)
  | PaidOut (game dst amount : Nat)
  | AdminWithdrawn (dst amount : Nat)
  deriving DecidableEq, Repr

/-- Revert reasons of `Treasury.sol` (custom errors, `Pausable` revert and
the `require(ok, "TREASURY_PAYOUT_FAILED")` failure). -/
inductive TreasuryError
  | NotGame
  | EnforcedPause
  | ZeroAddress
  | AmountZero
  | ExceedsMaxPayout (amount maxAllowed : Nat)
  | InsufficientTreasuryBalance (required available : Nat)
  | PayoutFailed
  | WithdrawFailed
  deriving DecidableEq, Repr

/-- The `Treasury` contract state.  `owner` is the `Ownable` administrator,
`balance` the contract's native ETH balance. -/
structure Treasury where
  owner : Nat
  isGame : Store Bool
  maxPayoutPerTx : Nat
  paused : Bool
  balance : Nat
  events : List TreasuryEvent
  deriving DecidableEq, Repr

namespace Treasury

/-- `receive()`: plain value transfer into the treasury; always accepted. -/
def receiveEth (t : Treasury) (sender amount : Nat) : Treasury :=
  { t with balance := t.balance + amount,
           events := .Deposited sender amount :: t.events }

/-- `deposit()`: explicit deposit entry point; reverts on zero value. -/
def deposit (t : Treasury) (sender amount : Nat) : Except TreasuryError Treasury :=
  if amount = 0 then .error .AmountZero
  else .ok { t with balance := t.balance + amount,
                    events := .Deposited sender amount :: t.events }

/-- `payout(to, amount)`: the `onlyGame` / `whenNotPaused` gated payout.
`accepts` says which recipients accept the value transfer; a rejected
transfer makes the whole call revert. -/
def payout (t : Treasury) (caller dst amount : Nat) (accepts : Nat → Bool) :
    Except TreasuryError Treasury :=
  if ¬ t.isGame.get false caller then .error .NotGame
  else if t.paused then .error .EnforcedPause
  else if dst = 0 then .error .ZeroAddress
  else if amount = 0 then .error .AmountZero
  else if t.maxPayoutPerTx ≠ 0 ∧ amount > t.maxPayoutPerTx then
    .error (.ExceedsMaxPayout amount t.maxPayoutPerTx)
  else if t.balance < amount then
    .error (.InsufficientTreasuryBalance amount t.balance)
  else if ¬ accepts dst then .error .PayoutFailed
  else .ok { t with balance := t.balance - amount,
                    events := .PaidOut caller dst amount :: t.events }

end Treasury

/-! ## DiceGame (src/unnamed/part_007)

State variables: `s_nextBetId` (starts at 1), `s_bets`,
`s_requestIdToBetId` (deleted on settlement), `s_playerBets`.
Constants: `MULTIPLIER = 6`, `HOUSE_EDGE_BPS = 200`, `BPS_BASE = 10000`. -/

/-- `BetStatus` enum of `DiceGame` (`OPEN` is the zero value). -/
inductive BetStatus
  | OPEN
  | CALCULATING
  | SETTLED
  deriving DecidableEq, Repr

/-- The `Bet` struct of `DiceGame`. -/
structure Bet where
  betId : Nat
  status : BetStatus
  player : Nat
  amount : Nat
  choice : Nat
  diceResult : Nat
  payout : Nat
  timestamp : Nat
  deriving DecidableEq, Repr

/-- Zero-initialised `Bet`, the value of an unwritten `s_bets` slot. -/
def Bet.default : Bet :=
  { betId := 0, status := .OPEN, player := 0, amount := 0, choice := 0,
    diceResult := 0, payout := 0, timestamp := 0 }

/-- Revert reasons of `DiceGame` (its custom errors, arithmetic panic, and
a revert bubbled up from the `Treasury` calls). -/
inductive DiceError
  | BetTooLow (sent lo : Nat)
  | BetTooHigh (sent hi : Nat)
  | NotProvider
  | AlreadySettled
  | InvalidChoice (choice : Nat)
  | BetNotFound
  | Panic
  | TreasuryRevert (e : TreasuryError)
  deriving DecidableEq, Repr

/-- Mutable state of the `DiceGame` contract. -/
structure DiceGame where
  nextBetId : Nat
  bets : Store Bet
  requestIdToBetId : Store Nat
  playerBets : Store (List Nat)
  deriving DecidableEq, Repr

/-- Immutable configuration of `DiceGame`: its own address, the
`i_randomnessProvider` address, `i_minBet` and `i_maxBet`. -/
structure DiceCfg where
  self : Nat
  provider : Nat
  minBet : Nat
  maxBet : Nat
  deriving DecidableEq, Repr

/-- A `DiceGame` together with the `Treasury` it calls and the game
contract's own native ETH balance. -/
structure DiceWorld where
  game : DiceGame
  treasury : Treasury
  gameBal : Nat
  deriving DecidableEq, Repr

namespace DiceGame

/-- 6x multiplier for a correct guess. -/
def MULTIPLIER : Nat := 6

/-- 2% house edge, in basis points. -/
def HOUSE_EDGE_BPS : Nat := 200

/-- Basis-points denominator. -/
def BPS_BASE : Nat := 10000

/-- Constructor-established initial state: `s_nextBetId = 1`. -/
def init : DiceGame :=
  { nextBetId := 1, bets := [], requestIdToBetId := [], playerBets := [] }

/-- `placeBet(choice)` with attached payment `value` at time `now`;
`requestId` is the identifier the `RandomnessProvider` returns for the
randomness request issued by this call. -/
def placeBet (cfg : DiceCfg) (w : DiceWorld) (caller value choice now requestId : Nat) :
    Except DiceError DiceWorld :=
  if choice < 1 ∨ choice > 6 then .error (.InvalidChoice choice)
  else if value < cfg.minBet then .error (.BetTooLow value cfg.minBet)
  else if value > cfg.maxBet then .error (.BetTooHigh value cfg.maxBet)
  else if w.game.nextBetId + 1 ≥ U256 then .error .Panic
  else
    let betId := w.game.nextBetId
    let bet : Bet :=
      { betId := betId, status := .OPEN, player := caller, amount := value,
        choice := choice, diceResult := 0, payout := 0, timestamp := now % U64 }
    let pb := (w.game.playerBets.get [] caller) ++ [betId]
    match w.treasury.deposit cfg.self value with
    | .error e => .error (.TreasuryRevert e)
    | .ok t1 =>
      .ok { game :=
              { nextBetId := betId + 1,
                bets := w.game.bets.set betId { bet with status := .CALCULATING },
                requestIdToBetId := w.game.requestIdToBetId.set requestId betId,
                playerBets := w.game.playerBets.set caller pb },
            treasury := t1,
            gameBal := w.gameBal + value - value }

/-- `fulfillRandomness(requestId, randomness)` called by `sender`;
`accepts` describes which addresses accept the winner's value transfer. -/
def fulfillRandomness (cfg : DiceCfg) (w : DiceWorld)
    (sender requestId randomness : Nat) (accepts : Nat → Bool) :
    Except DiceError DiceWorld :=
  if sender ≠ cfg.provider then .error .NotProvider
  else
    let betId := w.game.requestIdToBetId.get 0 requestId
    if betId = 0 then .error .BetNotFound
    else
      let bet := w.game.bets.get Bet.default betId
      if bet.status ≠ .CALCULATING then .error .AlreadySettled
      else
        let diceResult := randomness % 6 + 1
        if diceResult = bet.choice then
          if bet.amount * MULTIPLIER ≥ U256 ∨
             bet.amount * MULTIPLIER * (BPS_BASE - HOUSE_EDGE_BPS) ≥ U256 then
            .error .Panic
          else
            let payoutAmount :=
              bet.amount * MULTIPLIER * (BPS_BASE - HOUSE_EDGE_BPS) / BPS_BASE
            let g' : DiceGame :=
              { w.game with
                  bets := w.game.bets.set betId
                    { bet with diceResult := diceResult, payout := payoutAmount,
                               status := .SETTLED },
                  requestIdToBetId := w.game.requestIdToBetId.set requestId 0 }
            match w.treasury.payout cfg.self bet.player payoutAmount accepts with
            | .error e => .error (.TreasuryRevert e)
            | .ok t' => .ok { game := g', treasury := t', gameBal := w.gameBal }
        else
          .ok { game :=
                  { w.game with
                      bets := w.game.bets.set betId
                        { bet with diceResult := diceResult, payout := 0,
                                   status := .SETTLED },
                      requestIdToBetId := w.game.requestIdToBetId.set requestId 0 },
                treasury := w.treasury, gameBal := w.gameBal }

end DiceGame

/-! ## Raffle (src/contracts/src/games/Raffle.sol)

State variables: `s_currentRoundId`, `s_rounds`, `s_requestIdToRoundId`
(never deleted).  The constructor creates round 1 in state `OPEN`. -/

/-- `RaffleState` enum (`OPEN` is the zero value, so an unwritten round
slot reads as `OPEN`). -/
inductive RaffleState
  | OPEN
  | CALCULATING
  | SETTLED
  deriving DecidableEq, Repr

/-- `uint256(state)`: the numeric code of a `RaffleState`, as carried in
the `Raffle__UpkeepNotNeeded` error payload. -/
def RaffleState.code : RaffleState → Nat
  | .OPEN => 0
  | .CALCULATING => 1
  | .SETTLED => 2

/-- The `Round` struct of `Raffle`. -/
structure Round where
  roundId : Nat
  state : RaffleState
  startTime : Nat
  players : List Nat
  winner : Nat
  prizePool : Nat
  deriving DecidableEq, Repr

/-- Zero-initialised `Round`, the value of an unwritten `s_rounds` slot. -/
def Round.default : Round :=
  { roundId := 0, state := .OPEN, startTime := 0, players := [],
    winner := 0, prizePool := 0 }

/-- Revert reasons of `Raffle` (its custom errors, arithmetic panic, the
`require(sent, "Failed to send to treasury")` failure, and a revert
bubbled up from `Treasury.payout`). -/
inductive RaffleError
  | NotEnoughETHEntered
  | NotOpen
  | UpkeepNotNeeded (currentBalance numPlayers raffleState : Nat)
  | NotProvider
  | AlreadySettled
  | NoPlayers
  | Panic
  | SendToTreasuryFailed
  | TreasuryRevert (e : TreasuryError)
  deriving DecidableEq, Repr

/-- Mutable state of the `Raffle` contract. -/
structure Raffle where
  currentRoundId : Nat
  rounds : Store Round
  requestIdToRoundId : Store Nat
  deriving DecidableEq, Repr

/-- Immutable configuration of `Raffle`: its own address, the
`i_randomnessProvider` address, `i_entranceFee` and `i_interval`. -/
structure RaffleCfg where
  self : Nat
  provider : Nat
  entranceFee : Nat
  interval : Nat
  deriving DecidableEq, Repr

/-- A `Raffle` together with the `Treasury` it calls and the raffle
contract's own native ETH balance (which holds the open round's pool). -/
structure RaffleWorld where
  raffle : Raffle
  treasury : Treasury
  raffleBal : Nat
  deriving DecidableEq, Repr

namespace Raffle

/-- Constructor-established initial state: round 1 `OPEN` at `now`. -/
def init (now : Nat) : Raffle :=
  { currentRoundId := 1,
    rounds := Store.set []
      1 { Round.default with roundId := 1, state := .OPEN, startTime := now % U64 },
    requestIdToRoundId := [] }

/-- `enterRaffle()` with attached payment `value`. -/
def enterRaffle (cfg : RaffleCfg) (w : RaffleWorld) (caller value : Nat) :
    Except RaffleError RaffleWorld :=
  let round := w.raffle.rounds.get Round.default w.raffle.currentRoundId
  if round.state ≠ .OPEN then .error .NotOpen
  else if value < cfg.entranceFee then .error .NotEnoughETHEntered
  else if round.prizePool + value ≥ U256 then .error .Panic
  else
    .ok { w with
            raffle := { w.raffle with
              rounds := w.raffle.rounds.set w.raffle.currentRoundId
                { round with players := round.players ++ [caller],
                             prizePool := round.prizePool + value } },
            raffleBal := w.raffleBal + value }

/-- `checkUpkeep("")`: a `view` function, embedded as a pure read of the
state; `none` models the arithmetic panic when `block.timestamp` is
below the stored `startTime` (unreachable in practice). -/
def checkUpkeep (cfg : RaffleCfg) (g : Raffle) (now : Nat) : Option Bool :=
  let round := g.rounds.get Round.default g.currentRoundId
  if now < round.startTime then none
  else
    some (decide (round.state = .OPEN) &&
          decide (now - round.startTime > cfg.interval) &&
          decide (round.players.length > 0))

/-- `performUpkeep("")` at time `now`; `requestId` is the identifier the
`RandomnessProvider` returns for the randomness request issued by this
call (only consumed on the path that requests randomness). -/
def performUpkeep (cfg : RaffleCfg) (g : Raffle) (now requestId : Nat) :
    Except RaffleError Raffle :=
  match checkUpkeep cfg g now with
  | none => .error .Panic
  | some upkeepNeeded =>
    let round := g.rounds.get Round.default g.currentRoundId
    if round.state = .OPEN ∧ now - round.startTime > cfg.interval ∧
       round.players.length = 0 then
      .ok { g with rounds := g.rounds.set g.currentRoundId
                     { round with startTime := now % U64 } }
    else if ¬ upkeepNeeded then
      .error (.UpkeepNotNeeded round.prizePool round.players.length round.state.code)
    else if round.players.length = 0 then .error .NoPlayers
    else
      .ok { g with
              rounds := g.rounds.set g.currentRoundId
                { round with state := .CALCULATING },
              requestIdToRoundId :=
                g.requestIdToRoundId.set requestId g.currentRoundId }

/-- `fulfillRandomness(requestId, randomness)` called by `sender` at time
`now`; `accepts` describes which addresses accept value transfers. -/
def fulfillRandomness (cfg : RaffleCfg) (w : RaffleWorld)
    (sender requestId randomness now : Nat) (accepts : Nat → Bool) :
    Except RaffleError RaffleWorld :=
  if sender ≠ cfg.provider then .error .NotProvider
  else
    let roundId := w.raffle.requestIdToRoundId.get 0 requestId
    let round := w.raffle.rounds.get Round.default roundId
    if round.state ≠ .CALCULATING then .error .AlreadySettled
    else
      match round.players.get? (randomness % round.players.length) with
      | none => .error .Panic
      | some currentWinner =>
        let rounds1 := w.raffle.rounds.set roundId
          { round with winner := currentWinner, state := .SETTLED }
        let winnersPrize := round.prizePool
        if w.raffleBal < winnersPrize then .error .SendToTreasuryFailed
        else
          let t1 := w.treasury.receiveEth cfg.self winnersPrize
          match t1.payout cfg.self currentWinner winnersPrize accepts with
          | .error e => .error (.TreasuryRevert e)
          | .ok t2 =>
            let newId := w.raffle.currentRoundId + 1
            let prev := rounds1.get Round.default newId
            .ok { raffle :=
                    { currentRoundId := newId,
                      rounds := rounds1.set newId
                        { prev with roundId := newId, state := .OPEN,
                                    startTime := now % U64 },
                      requestIdToRoundId := w.raffle.requestIdToRoundId },
                  treasury := t2,
                  raffleBal := w.raffleBal - winnersPrize }

end Raffle

namespace Raffle

/-- States of the combined raffle/treasury world reachable from deployment.
`env` lets the environment change the treasury and the contract balances
arbitrarily between raffle transactions (deposits, other games, admin
actions); the raffle's own storage changes only through its entry points. -/
inductive Reach (cfg : RaffleCfg) : RaffleWorld → Prop
  | init (now : Nat) (t : Treasury) :
      Reach cfg { raffle := Raffle.init now, treasury := t, raffleBal := 0 }
  | enter {w w' : RaffleWorld} {caller value : Nat} :
      Reach cfg w → enterRaffle cfg w caller value = .ok w' → Reach cfg w'
  | upkeep {w : RaffleWorld} {g' : Raffle} {now requestId : Nat} :
      Reach cfg w → performUpkeep cfg w.raffle now requestId = .ok g' →
      Reach cfg { w with raffle := g' }
  | fulfill {w w' : RaffleWorld} {sender requestId randomness now : Nat}
      {accepts : Nat → Bool} :
      Reach cfg w →
      fulfillRandomness cfg w sender requestId randomness now accepts = .ok w' →
      Reach cfg w'
  | env {g : Raffle} {t t' : Treasury} {bal bal' : Nat} :
      Reach cfg { raffle := g, treasury := t, raffleBal := bal } →
      Reach cfg { raffle := g, treasury := t', raffleBal := bal' }

/-- Round-lifecycle invariant of the `Raffle` storage: rounds `1 .. cur-1`
are `SETTLED`, the current round is the unique `OPEN`/`CALCULATING` one,
slots above `cur` (and slot `0`) are untouched, and every recorded
request maps to a created round. -/
def Inv (g : Raffle) : Prop :=
  1 ≤ g.currentRoundId ∧
  (g.rounds.get Round.default g.currentRoundId).roundId = g.currentRoundId ∧
  ((g.rounds.get Round.default g.currentRoundId).state = .OPEN ∨
   (g.rounds.get Round.default g.currentRoundId).state = .CALCULATING) ∧
  (∀ i, 1 ≤ i → i < g.currentRoundId →
    (g.rounds.get Round.default i).state = .SETTLED ∧
    (g.rounds.get Round.default i).roundId = i) ∧
  (∀ i, g.currentRoundId < i → g.rounds.get Round.default i = Round.default) ∧
  g.rounds.get Round.default 0 = Round.default ∧
  (∀ req, g.requestIdToRoundId.get 0 req ≤ g.currentRoundId)

end Raffle

/-! ## Store lemmas -/

theorem Store.get_set_same (s : Store β) (d : β) (k : Nat) (v : β) :
    (s.set k v).get d k = v := by
  simp [Store.get, Store.set, List.find?]

theorem Store.get_set_ne (s : Store β) (d : β) (k k' : Nat) (v : β) (h : k' ≠ k) :
    (s.set k v).get d k' = s.get d k' := by
  have hk : (k == k') = false := beq_eq_false_iff_ne.mpr (fun he => h he.symm)
  simp [Store.get, Store.set, List.find?, hk]

theorem Store.get_nil (d : β) (k : Nat) : Store.get ([] : Store β) d k = d := rfl

namespace Raffle

theorem inv_init (now : Nat) : Inv (Raffle.init now) := by
  unfold Inv Raffle.init
  dsimp only
  refine ⟨le_refl 1, ?_, ?_, ?_, ?_, ?_, ?_⟩
  · rw [Store.get_set_same]
  · rw [Store.get_set_same]; exact Or.inl rfl
  · intro i h1 h2; omega
  · intro i hi
    rw [Store.get_set_ne _ _ _ _ _ (by omega), Store.get_nil]
  · rw [Store.get_set_ne _ _ _ _ _ (by omega), Store.get_nil]
  · intro req; simp [Store.get_nil]

theorem inv_enter {cfg : RaffleCfg} {w w' : RaffleWorld} {caller value : Nat}
    (hI : Inv w.raffle) (h : enterRaffle cfg w caller value = .ok w') :
    Inv w'.raffle := by
  obtain ⟨h1, h2, h3, h4, h5, h6, h7⟩ := hI
  simp only [enterRaffle] at h
  split at h
  · exact absurd h (by simp)
  split at h
  · exact absurd h (by simp)
  split at h
  · exact absurd h (by simp)
  simp only [Except.ok.injEq] at h
  subst h
  unfold Inv
  dsimp only
  refine ⟨h1, ?_, ?_, ?_, ?_, ?_, h7⟩
  · rw [Store.get_set_same]; exact h2
  · rw [Store.get_set_same]
    rcases h3 with h3 | h3
    · exact Or.inl h3
    · exact Or.inr h3
  · intro i hi hlt
    rw [Store.get_set_ne _ _ _ _ _ (by omega)]
    exact h4 i hi hlt
  · intro i hi
    rw [Store.get_set_ne _ _ _ _ _ (by omega)]
    exact h5 i hi
  · rw [Store.get_set_ne _ _ _ _ _ (by omega)]
    exact h6

end Raffle

namespace Raffle

theorem inv_upkeep {cfg : RaffleCfg} {g g' : Raffle} {now requestId : Nat}
    (hI : Inv g) (h : performUpkeep cfg g now requestId = .ok g') : Inv g' := by
  obtain ⟨h1, h2, h3, h4, h5, h6, h7⟩ := hI
  simp only [performUpkeep] at h
  split at h
  · exact absurd h (by simp)
  split at h
  · -- zero-entrant timer reset: only startTime changes
    simp only [Except.ok.injEq] at h
    subst h
    unfold Inv
    dsimp only
    refine ⟨h1, ?_, ?_, ?_, ?_, ?_, h7⟩
    · rw [Store.get_set_same]; exact h2
    · rw [Store.get_set_same]
      rcases h3 with h3 | h3
      · exact Or.inl h3
      · exact Or.inr h3
    · intro i hi hlt
      rw [Store.get_set_ne _ _ _ _ _ (by omega)]
      exact h4 i hi hlt
    · intro i hi
      rw [Store.get_set_ne _ _ _ _ _ (by omega)]
      exact h5 i hi
    · rw [Store.get_set_ne _ _ _ _ _ (by omega)]
      exact h6
  split at h
  · exact absurd h (by simp)
  split at h
  · exact absurd h (by simp)
  -- randomness requested: current round goes CALCULATING
  simp only [Except.ok.injEq] at h
  subst h
  unfold Inv
  dsimp only
  refine ⟨h1, ?_, ?_, ?_, ?_, ?_, ?_⟩
  · rw [Store.get_set_same]; exact h2
  · rw [Store.get_set_same]; exact Or.inr rfl
  · intro i hi hlt
    rw [Store.get_set_ne _ _ _ _ _ (by omega)]
    exact h4 i hi hlt
  · intro i hi
    rw [Store.get_set_ne _ _ _ _ _ (by omega)]
    exact h5 i hi
  · rw [Store.get_set_ne _ _ _ _ _ (by omega)]
    exact h6
  · intro req
    by_cases hr : req = requestId
    · subst hr; rw [Store.get_set_same]
    · rw [Store.get_set_ne _ _ _ _ _ hr]
      exact h7 req

theorem inv_fulfill {cfg : RaffleCfg} {w w' : RaffleWorld}
    {sender requestId randomness now : Nat} {accepts : Nat → Bool}
    (hI : Inv w.raffle)
    (h : fulfillRandomness cfg w sender requestId randomness now accepts = .ok w') :
    Inv w'.raffle := by
  obtain ⟨h1, h2, h3, h4, h5, h6, h7⟩ := hI
  simp only [fulfillRandomness] at h
  split at h
  · exact absurd h (by simp)
  split at h
  · exact absurd h (by simp)
  next hstate =>
  split at h
  · exact absurd h (by simp)
  next currentWinner hwin =>
  split at h
  · exact absurd h (by simp)
  split at h
  · exact absurd h (by simp)
  next t2 hpay =>
  -- the settled round must be the current one
  push_neg at hstate
  have hrid : w.raffle.requestIdToRoundId.get 0 requestId = w.raffle.currentRoundId := by
    by_contra hne
    rcases Nat.lt_or_ge (w.raffle.requestIdToRoundId.get 0 requestId)
        w.raffle.currentRoundId with hlt | hge
    · rcases Nat.eq_zero_or_pos (w.raffle.requestIdToRoundId.get 0 requestId) with h0 | hpos
      · rw [h0, h6] at hstate
        exact absurd hstate (by simp [Round.default])
      · have := (h4 _ hpos hlt).1
        rw [this] at hstate
        exact absurd hstate (by simp)
    · have hgt : w.raffle.currentRoundId < w.raffle.requestIdToRoundId.get 0 requestId := by
        omega
      rw [h5 _ hgt] at hstate
      exact absurd hstate (by simp [Round.default])
  simp only [Except.ok.injEq] at h
  subst h
  unfold Inv
  dsimp only
  rw [hrid] at hstate ⊢
  refine ⟨by omega, ?_, ?_, ?_, ?_, ?_, ?_⟩
  · rw [Store.get_set_same]
  · rw [Store.get_set_same]; exact Or.inl rfl
  · intro i hi hlt
    by_cases hic : i = w.raffle.currentRoundId
    · subst hic
      rw [Store.get_set_ne _ _ _ _ _ (by omega), Store.get_set_same]
      exact ⟨rfl, h2⟩
    · rw [Store.get_set_ne _ _ _ _ _ (by omega),
          Store.get_set_ne _ _ _ _ _ (by omega)]
      exact h4 i hi (by omega)
  · intro i hi
    rw [Store.get_set_ne _ _ _ _ _ (by omega),
        Store.get_set_ne _ _ _ _ _ (by omega)]
    exact h5 i (by omega)
  · rw [Store.get_set_ne _ _ _ _ _ (by omega),
        Store.get_set_ne _ _ _ _ _ (by omega)]
    exact h6
  · intro req
    have := h7 req
    omega

/-- Every reachable raffle state satisfies the round-lifecycle invariant. -/
theorem inv_reach {cfg : RaffleCfg} {w : RaffleWorld} (h : Reach cfg w) :
    Inv w.raffle := by
  induction h with
  | init now t => exact inv_init now
  | enter _ hstep ih => exact inv_enter ih hstep
  | upkeep _ hstep ih => exact inv_upkeep ih hstep
  | fulfill _ hstep ih => exact inv_fulfill ih hstep
  | env hr ih => exact ih

end Raffle

/-! ## Helper characterisations -/

theorem Treasury.payout_ok {t t' : Treasury} {caller dst amount : Nat}
    {accepts : Nat → Bool}
    (h : Treasury.payout t caller dst amount accepts = .ok t') :
    amount ≤ t.balance ∧
    t' = { t with balance := t.balance - amount,
                  events := .PaidOut caller dst amount :: t.events } := by
  simp only [Treasury.payout] at h
  split at h
  · exact absurd h (by simp)
  split at h
  · exact absurd h (by simp)
  split at h
  · exact absurd h (by simp)
  split at h
  · exact absurd h (by simp)
  split at h
  · exact absurd h (by simp)
  split at h
  · exact absurd h (by simp)
  split at h
  · exact absurd h (by simp)
  next hbal _ =>
  simp only [Except.ok.injEq] at h
  exact ⟨by omega, h.symm⟩

/-! ## Claims -/

/-- C3: `Treasury.payout` reverts with `NotGame` whenever the caller is
not in the authorized-game set, regardless of amount, balance or pause
state (the guard is checked first); for an authorized caller it reverts
while paused, on a null recipient, on a zero amount, on an amount above
a nonzero ceiling, and on an amount above the current balance; if the
recipient rejects the transfer the whole call reverts (an `.error`
result carries no state change in this embedding); otherwise it
succeeds, the balance decreases by exactly `amount`, and a `PaidOut`
event is logged. -/
theorem C3_treasury_payout_guards (t : Treasury) (caller dst amount : Nat)
    (accepts : Nat → Bool) :
    (t.isGame.get false caller = false →
      t.payout caller dst amount accepts = .error .NotGame) ∧
    (t.isGame.get false caller = true → t.paused = true →
      t.payout caller dst amount accepts = .error .EnforcedPause) ∧
    (t.isGame.get false caller = true → t.paused = false → dst = 0 →
      t.payout caller dst amount accepts = .error .ZeroAddress) ∧
    (t.isGame.get false caller = true → t.paused = false → dst ≠ 0 →
      amount = 0 →
      t.payout caller dst amount accepts = .error .AmountZero) ∧
    (t.isGame.get false caller = true → t.paused = false → dst ≠ 0 →
      amount ≠ 0 → t.maxPayoutPerTx ≠ 0 → t.maxPayoutPerTx < amount →
      t.payout caller dst amount accepts =
        .error (.ExceedsMaxPayout amount t.maxPayoutPerTx)) ∧
    (t.isGame.get false caller = true → t.paused = false → dst ≠ 0 →
      amount ≠ 0 → (t.maxPayoutPerTx = 0 ∨ amount ≤ t.maxPayoutPerTx) →
      t.balance < amount →
      t.payout caller dst amount accepts =
        .error (.InsufficientTreasuryBalance amount t.balance)) ∧
    (t.isGame.get false caller = true → t.paused = false → dst ≠ 0 →
      amount ≠ 0 → (t.maxPayoutPerTx = 0 ∨ amount ≤ t.maxPayoutPerTx) →
      amount ≤ t.balance → accepts dst = false →
      t.payout caller dst amount accepts = .error .PayoutFailed) ∧
    (t.isGame.get false caller = true → t.paused = false → dst ≠ 0 →
      amount ≠ 0 → (t.maxPayoutPerTx = 0 ∨ amount ≤ t.maxPayoutPerTx) →
      amount ≤ t.balance → accepts dst = true →
      t.payout caller dst amount accepts =
        .ok { t with balance := t.balance - amount,
                     events := .PaidOut caller dst amount :: t.events } ∧
      t.balance - (t.balance - amount) = amount) := by
  refine ⟨?_, ?_, ?_, ?_, ?_, ?_, ?_, ?_⟩
  · intro h1; simp [Treasury.payout, h1]
  · intro h1 h2; simp [Treasury.payout, h1, h2]
  · intro h1 h2 h3; simp [Treasury.payout, h1, h2, h3]
  · intro h1 h2 h3 h4; simp [Treasury.payout, h1, h2, h3, h4]
  · intro h1 h2 h3 h4 h5 h6
    simp [Treasury.payout, h1, h2, h3, h4, h5, h6]
  · intro h1 h2 h3 h4 h5 h6
    have hc : ¬ (t.maxPayoutPerTx ≠ 0 ∧ amount > t.maxPayoutPerTx) := by
      rcases h5 with h5 | h5 <;> omega
    simp [Treasury.payout, h1, h2, h3, h4, hc, h6]
  · intro h1 h2 h3 h4 h5 h6 h7
    have hc : ¬ (t.maxPayoutPerTx ≠ 0 ∧ amount > t.maxPayoutPerTx) := by
      rcases h5 with h5 | h5 <;> omega
    have hb : ¬ t.balance < amount := by omega
    simp [Treasury.payout, h1, h2, h3, h4, hc, hb, h7]
  · intro h1 h2 h3 h4 h5 h6 h7
    have hc : ¬ (t.maxPayoutPerTx ≠ 0 ∧ amount > t.maxPayoutPerTx) := by
      rcases h5 with h5 | h5 <;> omega
    have hb : ¬ t.balance < amount := by omega
    refine ⟨?_, by omega⟩
    simp [Treasury.payout, h1, h2, h3, h4, hc, hb, h7]

/-- A concrete treasury used to witness C3: game `5` is authorized, the
ceiling is `100`, the balance `50`, and the contract is unpaused. -/
def witnessTreasury : Treasury :=
  { owner := 1, isGame := Store.set [] 5 true, maxPayoutPerTx := 100,
    paused := false, balance := 1000, events := [] }

theorem C3_treasury_payout_guards_witness :
    Treasury.payout witnessTreasury 5 7 20 (fun _ => true) =
      .ok { witnessTreasury with balance := 980, events := [.PaidOut 5 7 20] } :=
  ((C3_treasury_payout_guards witnessTreasury 5 7 20 (fun _ => true)).2.2.2.2.2.2.2
    (by decide) (by decide) (by decide) (by decide) (Or.inr (by decide))
    (by decide) rfl).1

/-- C2: whenever `DiceGame.fulfillRandomness` settles a bet with random
input `r`, the recorded dice result equals `r % 6 + 1` and lies in
`[1, 6]`; the bet wins exactly when this result equals the stored
choice; a winning bet's recorded payout equals
`stake * 6 * 9800 / 10000` exactly and the treasury pays exactly that
amount (its balance drops by the payout); a losing bet's payout is `0`
and the treasury is untouched.  The boundary instances `r = 2 → 3`,
`r = 4 → 5`, `r = 0 → 1` are instances of the proved equation. -/
theorem C2_dice_outcome_and_payout (cfg : DiceCfg) (w w' : DiceWorld)
    (sender requestId randomness : Nat) (accepts : Nat → Bool)
    (h : DiceGame.fulfillRandomness cfg w sender requestId randomness accepts
           = .ok w') :
    ((w'.game.bets.get Bet.default
        (w.game.requestIdToBetId.get 0 requestId)).diceResult
      = randomness % 6 + 1) ∧
    (1 ≤ randomness % 6 + 1 ∧ randomness % 6 + 1 ≤ 6) ∧
    (randomness % 6 + 1
        = (w.game.bets.get Bet.default
            (w.game.requestIdToBetId.get 0 requestId)).choice →
      (w'.game.bets.get Bet.default
          (w.game.requestIdToBetId.get 0 requestId)).payout
        = (w.game.bets.get Bet.default
            (w.game.requestIdToBetId.get 0 requestId)).amount * 6 * 9800 / 10000 ∧
      w'.treasury.balance
          + (w'.game.bets.get Bet.default
              (w.game.requestIdToBetId.get 0 requestId)).payout
        = w.treasury.balance) ∧
    (randomness % 6 + 1
        ≠ (w.game.bets.get Bet.default
            (w.game.requestIdToBetId.get 0 requestId)).choice →
      (w'.game.bets.get Bet.default
          (w.game.requestIdToBetId.get 0 requestId)).payout = 0 ∧
      w'.treasury = w.treasury) := by
  have hmod : randomness % 6 < 6 := Nat.mod_lt _ (by omega)
  simp only [DiceGame.fulfillRandomness] at h
  split at h
  · exact absurd h (by simp)
  split at h
  · exact absurd h (by simp)
  split at h
  · exact absurd h (by simp)
  split at h
  · -- winning branch
    next hwon =>
    split at h
    · exact absurd h (by simp)
    next hov =>
    split at h
    · exact absurd h (by simp)
    next t' hpay =>
    simp only [Except.ok.injEq] at h
    subst h
    obtain ⟨hle, ht⟩ := Treasury.payout_ok hpay
    dsimp only
    rw [Store.get_set_same]
    subst ht
    refine ⟨rfl, by omega, ?_, ?_⟩
    · intro _
      constructor
      · simp [DiceGame.MULTIPLIER, DiceGame.BPS_BASE, DiceGame.HOUSE_EDGE_BPS]
      · dsimp only
        omega
    · intro hne
      exact absurd hwon hne
  · -- losing branch
    next hwon =>
    simp only [Except.ok.injEq] at h
    subst h
    dsimp only
    rw [Store.get_set_same]
    refine ⟨rfl, by omega, ?_, ?_⟩
    · intro hw
      exact absurd hw hwon
    · intro _
      exact ⟨rfl, rfl⟩

/-- A concrete world used to witness C2 and C1's dice half: bet `1` is
`CALCULATING` for player `7` with stake `10` and choice `3`, request `5`
maps to it, and the provider is address `1`. -/
def witnessDiceWorld : DiceWorld :=
  { game :=
      { nextBetId := 2,
        bets := Store.set []
          1 { betId := 1, status := .CALCULATING, player := 7, amount := 10,
              choice := 3, diceResult := 0, payout := 0, timestamp := 0 },
        requestIdToBetId := Store.set [] 5 1,
        playerBets := Store.set [] 7 [1] },
    treasury := witnessTreasury,
    gameBal := 0 }

/-- Configuration for `witnessDiceWorld`: the game's address is `5`
(authorized in `witnessTreasury`), the provider's is `1`. -/
def witnessDiceCfg : DiceCfg :=
  { self := 5, provider := 1, minBet := 1, maxBet := 100 }

/-- The settled world produced from `witnessDiceWorld` by request `5`
with randomness `2` (a winning roll: result `3` = choice `3`). -/
def witnessDiceOut : DiceWorld :=
  (DiceGame.fulfillRandomness witnessDiceCfg witnessDiceWorld 1 5 2
    (fun _ => true)).toOption.getD witnessDiceWorld

theorem C2_dice_outcome_and_payout_witness :
    (witnessDiceOut.game.bets.get Bet.default
        (witnessDiceWorld.game.requestIdToBetId.get 0 5)).diceResult = 2 % 6 + 1 ∧
    (witnessDiceOut.game.bets.get Bet.default
        (witnessDiceWorld.game.requestIdToBetId.get 0 5)).payout
      = (witnessDiceWorld.game.bets.get Bet.default
          (witnessDiceWorld.game.requestIdToBetId.get 0 5)).amount * 6 * 9800 / 10000 :=
  have h : DiceGame.fulfillRandomness witnessDiceCfg witnessDiceWorld 1 5 2
      (fun _ => true) = .ok witnessDiceOut := by decide
  have hc := C2_dice_outcome_and_payout witnessDiceCfg witnessDiceWorld
    witnessDiceOut 1 5 2 (fun _ => true) h
  ⟨hc.1, (hc.2.2.1 (by decide)).1⟩

/-- C9: `DiceGame.placeBet` reverts with a typed error naming the violated
bound when `choice` is outside `[1, 6]` (`InvalidChoice`) or the payment
is below `minStake` (`BetTooLow`) or above `maxStake` (`BetTooHigh`);
on success it allocates bet id `s_nextBetId` and increments the counter
(which the constructor starts at 1), records owner, stake, choice and
timestamp, appends the id to the owner's history, deposits the whole
stake into the treasury leaving the game's own balance unchanged, leaves
the bet `CALCULATING` (awaiting randomness), and records the
request-to-bet index for the single issued randomness request.
`hmin` reflects the constructor's `require(minBet > 0)`; `hctr` is the
counter's `uint256` bound. -/
theorem C9_placeBet (cfg : DiceCfg) (w : DiceWorld)
    (caller value choice now requestId : Nat)
    (hmin : 0 < cfg.minBet) (hctr : w.game.nextBetId + 1 < U256) :
    (choice < 1 ∨ 6 < choice →
      DiceGame.placeBet cfg w caller value choice now requestId
        = .error (.InvalidChoice choice)) ∧
    (1 ≤ choice → choice ≤ 6 → value < cfg.minBet →
      DiceGame.placeBet cfg w caller value choice now requestId
        = .error (.BetTooLow value cfg.minBet)) ∧
    (1 ≤ choice → choice ≤ 6 → cfg.minBet ≤ value → cfg.maxBet < value →
      DiceGame.placeBet cfg w caller value choice now requestId
        = .error (.BetTooHigh value cfg.maxBet)) ∧
    (1 ≤ choice → choice ≤ 6 → cfg.minBet ≤ value → value ≤ cfg.maxBet →
      DiceGame.placeBet cfg w caller value choice now requestId
        = .ok { game :=
                  { nextBetId := w.game.nextBetId + 1,
                    bets := w.game.bets.set w.game.nextBetId
                      { betId := w.game.nextBetId, status := .CALCULATING,
                        player := caller, amount := value, choice := choice,
                        diceResult := 0, payout := 0, timestamp := now % U64 },
                    requestIdToBetId :=
                      w.game.requestIdToBetId.set requestId w.game.nextBetId,
                    playerBets := w.game.playerBets.set caller
                      (w.game.playerBets.get [] caller ++ [w.game.nextBetId]) },
                treasury :=
                  { w.treasury with
                      balance := w.treasury.balance + value,
                      events := .Deposited cfg.self value :: w.treasury.events },
                gameBal := w.gameBal } ∧
      DiceGame.init.nextBetId = 1) := by
  refine ⟨?_, ?_, ?_, ?_⟩
  · intro h1
    unfold DiceGame.placeBet
    rw [if_pos h1]
  · intro h1 h2 h3
    have hc : ¬ (choice < 1 ∨ 6 < choice) := by omega
    unfold DiceGame.placeBet
    rw [if_neg hc, if_pos h3]
  · intro h1 h2 h3 h4
    have hc : ¬ (choice < 1 ∨ 6 < choice) := by omega
    have hlo : ¬ value < cfg.minBet := by omega
    unfold DiceGame.placeBet
    rw [if_neg hc, if_neg hlo, if_pos h4]
  · intro h1 h2 h3 h4
    have hc : ¬ (choice < 1 ∨ 6 < choice) := by omega
    have hlo : ¬ value < cfg.minBet := by omega
    have hhi : ¬ cfg.maxBet < value := by omega
    have hct : ¬ w.game.nextBetId + 1 ≥ U256 := by omega
    have hv : ¬ value = 0 := by omega
    refine ⟨?_, rfl⟩
    unfold DiceGame.placeBet
    rw [if_neg hc, if_neg hlo, if_neg hhi, if_neg hct]
    unfold Treasury.deposit
    rw [if_neg hv]
    simp [Nat.add_sub_cancel]

/-- The fresh dice world used to witness C9: no bets yet. -/
def witnessDiceStart : DiceWorld :=
  { game := DiceGame.init, treasury := witnessTreasury, gameBal := 0 }

/-- The world produced by a first bet of stake `10` on `3` from player
`7`, with randomness request id `6`. -/
def witnessPlaceOut : DiceWorld :=
  (DiceGame.placeBet witnessDiceCfg witnessDiceStart 7 10 3 0 6).toOption.getD
    witnessDiceStart

theorem C9_placeBet_witness :
    DiceGame.placeBet witnessDiceCfg witnessDiceStart 7 10 3 0 6
      = .ok witnessPlaceOut :=
  have h := ((C9_placeBet witnessDiceCfg witnessDiceStart 7 10 3 0 6
    (by decide) (by decide)).2.2.2 (by decide) (by decide) (by decide)
    (by decide)).1
  h.trans (by decide)

/-- C8: `Raffle.enterRaffle` reverts with `NotOpen` whenever the current
round's status is not `OPEN` (in particular while it is `CALCULATING`,
i.e. awaiting randomness), reverts with the below-minimum-stake error
`NotEnoughETHEntered` when the payment is under the entrance fee, and
otherwise appends the caller to the current round's entrant list
(preserving order, duplicates permitted) and adds exactly the payment to
the round's pool, changing nothing else in the raffle storage (the
contract's ETH balance also grows by the payment). -/
theorem C8_enterRaffle (cfg : RaffleCfg) (w : RaffleWorld) (caller value : Nat) :
    ((w.raffle.rounds.get Round.default w.raffle.currentRoundId).state ≠ .OPEN →
      Raffle.enterRaffle cfg w caller value = .error .NotOpen) ∧
    ((w.raffle.rounds.get Round.default w.raffle.currentRoundId).state = .OPEN →
      value < cfg.entranceFee →
      Raffle.enterRaffle cfg w caller value = .error .NotEnoughETHEntered) ∧
    ((w.raffle.rounds.get Round.default w.raffle.currentRoundId).state = .OPEN →
      cfg.entranceFee ≤ value →
      (w.raffle.rounds.get Round.default w.raffle.currentRoundId).prizePool + value
        < U256 →
      Raffle.enterRaffle cfg w caller value
        = .ok { w with
            raffle := { w.raffle with
              rounds := w.raffle.rounds.set w.raffle.currentRoundId
                { w.raffle.rounds.get Round.default w.raffle.currentRoundId with
                    players :=
                      (w.raffle.rounds.get Round.default
                        w.raffle.currentRoundId).players ++ [caller],
                    prizePool :=
                      (w.raffle.rounds.get Round.default
                        w.raffle.currentRoundId).prizePool + value } },
            raffleBal := w.raffleBal + value }) := by
  refine ⟨?_, ?_, ?_⟩
  · intro h1
    unfold Raffle.enterRaffle
    rw [if_pos h1]
  · intro h1 h2
    unfold Raffle.enterRaffle
    rw [if_neg (by simp [h1]), if_pos h2]
  · intro h1 h2 h3
    have hlo : ¬ value < cfg.entranceFee := by omega
    have hov : ¬ (w.raffle.rounds.get Round.default
        w.raffle.currentRoundId).prizePool + value ≥ U256 := by omega
    unfold Raffle.enterRaffle
    rw [if_neg (by simp [h1]), if_neg hlo, if_neg hov]

/-- Raffle configuration for the witnesses: contract address `5`
(authorized in `witnessTreasury`), provider `1`, entrance fee `2`,
interval `10`. -/
def witnessRaffleCfg : RaffleCfg :=
  { self := 5, provider := 1, entranceFee := 2, interval := 10 }

/-- The freshly-deployed raffle world (round 1 open at time 0). -/
def witnessRaffleWorld0 : RaffleWorld :=
  { raffle := Raffle.init 0, treasury := witnessTreasury, raffleBal := 0 }

/-- The world after player `7` enters round 1 with the exact fee. -/
def witnessRaffleWorld1 : RaffleWorld :=
  (Raffle.enterRaffle witnessRaffleCfg witnessRaffleWorld0 7 2).toOption.getD
    witnessRaffleWorld0

theorem C8_enterRaffle_witness :
    Raffle.enterRaffle witnessRaffleCfg witnessRaffleWorld0 7 2
      = .ok witnessRaffleWorld1 :=
  have h := (C8_enterRaffle witnessRaffleCfg witnessRaffleWorld0 7 2).2.2
    (by decide) (by decide) (by decide)
  h.trans (by decide)

/-- C7: `Raffle.checkUpkeep` is embedded as a pure function of the state
(mirroring its `view` qualifier — it can change nothing), and, whenever
the stored start time is not in the future (true of every reachable
state), it returns `true` exactly when the current round is `OPEN`, more
than `i_interval` seconds have elapsed since its start, and the entrant
list is non-empty; it returns `false` whenever any of the three
conditions fails. -/
theorem C7_checkUpkeep (cfg : RaffleCfg) (g : Raffle) (now : Nat)
    (hst : (g.rounds.get Round.default g.currentRoundId).startTime ≤ now) :
    (Raffle.checkUpkeep cfg g now = some true ↔
      ((g.rounds.get Round.default g.currentRoundId).state = .OPEN ∧
       cfg.interval
           < now - (g.rounds.get Round.default g.currentRoundId).startTime ∧
       (g.rounds.get Round.default g.currentRoundId).players ≠ [])) ∧
    (Raffle.checkUpkeep cfg g now = some false ↔
      ¬ ((g.rounds.get Round.default g.currentRoundId).state = .OPEN ∧
         cfg.interval
             < now - (g.rounds.get Round.default g.currentRoundId).startTime ∧
         (g.rounds.get Round.default g.currentRoundId).players ≠ [])) := by
  have hlt : ¬ now < (g.rounds.get Round.default g.currentRoundId).startTime :=
    Nat.not_lt.mpr hst
  unfold Raffle.checkUpkeep
  rw [if_neg hlt]
  constructor
  · simp only [Option.some.injEq, Bool.and_eq_true, decide_eq_true_eq]
    rw [and_assoc]
    simp [List.length_pos]
  · rw [Option.some.injEq, ← Bool.not_eq_true]
    simp only [Bool.and_eq_true, decide_eq_true_eq]
    rw [and_assoc]
    simp [List.length_pos]

theorem C7_checkUpkeep_witness :
    Raffle.checkUpkeep witnessRaffleCfg (Raffle.init 0) 5 = some false :=
  ((C7_checkUpkeep witnessRaffleCfg (Raffle.init 0) 5 (by decide)).2).mpr
    (by decide)

/-- C6: at time `now` (with the stored start time not in the future and
`now` within `uint64` range), `Raffle.performUpkeep`
(1) when the current round is `OPEN`, the interval has elapsed and the
entrant list is empty, succeeds without closing the round: it only
resets the round's start time to `now` and leaves the status `OPEN`;
(2) in every other situation where the trigger conditions are not met it
reverts with `UpkeepNotNeeded` carrying the pool size, entrant count and
numeric status as payload, changing no state (an `.error` result);
(3) when the conditions are met it sets the round to `CALCULATING`
(awaiting randomness), issues the single randomness request `requestId`
and records the request-to-round index. -/
theorem C6_performUpkeep (cfg : RaffleCfg) (g : Raffle) (now requestId : Nat)
    (hst : (g.rounds.get Round.default g.currentRoundId).startTime ≤ now)
    (hnow : now < U64) :
    ((g.rounds.get Round.default g.currentRoundId).state = .OPEN →
      cfg.interval < now - (g.rounds.get Round.default g.currentRoundId).startTime →
      (g.rounds.get Round.default g.currentRoundId).players = [] →
      Raffle.performUpkeep cfg g now requestId
        = .ok { g with
            rounds := g.rounds.set g.currentRoundId
              { g.rounds.get Round.default g.currentRoundId with
                  startTime := now } }) ∧
    (¬ ((g.rounds.get Round.default g.currentRoundId).state = .OPEN ∧
        cfg.interval
            < now - (g.rounds.get Round.default g.currentRoundId).startTime ∧
        (g.rounds.get Round.default g.currentRoundId).players ≠ []) →
      ¬ ((g.rounds.get Round.default g.currentRoundId).state = .OPEN ∧
         cfg.interval
             < now - (g.rounds.get Round.default g.currentRoundId).startTime ∧
         (g.rounds.get Round.default g.currentRoundId).players = []) →
      Raffle.performUpkeep cfg g now requestId
        = .error (.UpkeepNotNeeded
            (g.rounds.get Round.default g.currentRoundId).prizePool
            (g.rounds.get Round.default g.currentRoundId).players.length
            (g.rounds.get Round.default g.currentRoundId).state.code)) ∧
    ((g.rounds.get Round.default g.currentRoundId).state = .OPEN →
      cfg.interval < now - (g.rounds.get Round.default g.currentRoundId).startTime →
      (g.rounds.get Round.default g.currentRoundId).players ≠ [] →
      Raffle.performUpkeep cfg g now requestId
        = .ok { g with
            rounds := g.rounds.set g.currentRoundId
              { g.rounds.get Round.default g.currentRoundId with
                  state := .CALCULATING },
            requestIdToRoundId :=
              g.requestIdToRoundId.set requestId g.currentRoundId }) := by
  have hlt : ¬ now < (g.rounds.get Round.default g.currentRoundId).startTime :=
    Nat.not_lt.mpr hst
  refine ⟨?_, ?_, ?_⟩
  · intro h1 h2 h3
    unfold Raffle.performUpkeep Raffle.checkUpkeep
    rw [if_neg hlt]
    dsimp only
    rw [if_pos ⟨h1, h2, by simp [h3]⟩, Nat.mod_eq_of_lt hnow]
  · intro hn1 hn2
    have hres : ¬ ((g.rounds.get Round.default g.currentRoundId).state = .OPEN ∧
        cfg.interval
            < now - (g.rounds.get Round.default g.currentRoundId).startTime ∧
        (g.rounds.get Round.default g.currentRoundId).players.length = 0) := by
      intro hc
      exact hn2 ⟨hc.1, hc.2.1, List.length_eq_zero.mp hc.2.2⟩
    have hb : ((decide ((g.rounds.get Round.default g.currentRoundId).state = .OPEN) &&
        decide (cfg.interval
            < now - (g.rounds.get Round.default g.currentRoundId).startTime) &&
        decide (0 < (g.rounds.get Round.default g.currentRoundId).players.length))
          = false) := by
      by_contra hbt
      rw [Bool.not_eq_false, Bool.and_eq_true, Bool.and_eq_true] at hbt
      obtain ⟨⟨hb1, hb2⟩, hb3⟩ := hbt
      rw [decide_eq_true_eq] at hb1 hb2 hb3
      exact hn1 ⟨hb1, hb2, by
        intro hnil
        rw [hnil] at hb3
        exact absurd hb3 (by simp)⟩
    unfold Raffle.performUpkeep Raffle.checkUpkeep
    rw [if_neg hlt]
    dsimp only
    rw [if_neg hres, hb]
    rw [if_pos (by simp)]
  · intro h1 h2 h3
    have hres : ¬ ((g.rounds.get Round.default g.currentRoundId).state = .OPEN ∧
        cfg.interval
            < now - (g.rounds.get Round.default g.currentRoundId).startTime ∧
        (g.rounds.get Round.default g.currentRoundId).players.length = 0) := by
      intro hc
      exact h3 (List.length_eq_zero.mp hc.2.2)
    have hb : ((decide ((g.rounds.get Round.default g.currentRoundId).state = .OPEN) &&
        decide (cfg.interval
            < now - (g.rounds.get Round.default g.currentRoundId).startTime) &&
        decide (0 < (g.rounds.get Round.default g.currentRoundId).players.length))
          = true) := by
      rw [Bool.and_eq_true, Bool.and_eq_true]
      refine ⟨⟨?_, ?_⟩, ?_⟩ <;> rw [decide_eq_true_eq]
      · exact h1
      · exact h2
      · exact List.length_pos.mpr h3
    have hlen : ¬ (g.rounds.get Round.default g.currentRoundId).players.length = 0 :=
      fun hc => h3 (List.length_eq_zero.mp hc)
    unfold Raffle.performUpkeep Raffle.checkUpkeep
    rw [if_neg hlt]
    dsimp only
    rw [if_neg hres, hb]
    rw [if_neg (by simp), if_neg hlen]

/-- The post-state of the zero-entrant timer reset used to witness C6:
round 1 still `OPEN`, start time moved to `11`. -/
def witnessUpkeepReset : Raffle :=
  (Raffle.performUpkeep witnessRaffleCfg (Raffle.init 0) 11 9).toOption.getD
    (Raffle.init 0)

theorem C6_performUpkeep_witness :
    Raffle.performUpkeep witnessRaffleCfg (Raffle.init 0) 11 9
      = .ok witnessUpkeepReset :=
  have h := (C6_performUpkeep witnessRaffleCfg (Raffle.init 0) 11 9
    (by decide) (by decide)).1 (by decide) (by decide) (by decide)
  h.trans (by decide)

/-- After any successful `Raffle.fulfillRandomness`, the request index is
untouched and the settled round's slot is left `SETTLED` (or `OPEN`, in
the degenerate case where the fresh round reuses the same slot) — in
either case not `CALCULATING`. -/
theorem Raffle.fulfill_ok_round {cfg : RaffleCfg} {w w' : RaffleWorld}
    {sender requestId randomness now : Nat} {accepts : Nat → Bool}
    (h : Raffle.fulfillRandomness cfg w sender requestId randomness now accepts
           = .ok w') :
    w'.raffle.requestIdToRoundId = w.raffle.requestIdToRoundId ∧
    ((w'.raffle.rounds.get Round.default
        (w.raffle.requestIdToRoundId.get 0 requestId)).state = .SETTLED ∨
     (w'.raffle.rounds.get Round.default
        (w.raffle.requestIdToRoundId.get 0 requestId)).state = .OPEN) := by
  simp only [Raffle.fulfillRandomness] at h
  split at h
  · exact absurd h (by simp)
  split at h
  · exact absurd h (by simp)
  split at h
  · exact absurd h (by simp)
  split at h
  · exact absurd h (by simp)
  split at h
  · exact absurd h (by simp)
  simp only [Except.ok.injEq] at h
  subst h
  dsimp only
  refine ⟨rfl, ?_⟩
  by_cases hrid : w.raffle.requestIdToRoundId.get 0 requestId
      = w.raffle.currentRoundId + 1
  · rw [hrid, Store.get_set_same]
    exact Or.inr rfl
  · rw [Store.get_set_ne _ _ _ _ _ hrid, Store.get_set_same]
    exact Or.inl rfl

/-- After any successful `DiceGame.fulfillRandomness`, the request-index
entry for the settled request has been deleted (reset to the zero
value). -/
theorem DiceGame.fulfill_ok_reqMap {cfg : DiceCfg} {w w' : DiceWorld}
    {sender requestId randomness : Nat} {accepts : Nat → Bool}
    (h : DiceGame.fulfillRandomness cfg w sender requestId randomness accepts
           = .ok w') :
    w'.game.requestIdToBetId = w.game.requestIdToBetId.set requestId 0 := by
  simp only [DiceGame.fulfillRandomness] at h
  split at h
  · exact absurd h (by simp)
  split at h
  · exact absurd h (by simp)
  split at h
  · exact absurd h (by simp)
  split at h
  · split at h
    · exact absurd h (by simp)
    split at h
    · exact absurd h (by simp)
    simp only [Except.ok.injEq] at h
    subst h
    rfl
  · simp only [Except.ok.injEq] at h
    subst h
    rfl

/-- C10: a `Raffle.fulfillRandomness` call from the provider for a request
identifier that was never recorded reverts with `Raffle__AlreadySettled`
and changes no state (an `.error` result): the unknown identifier maps
to round id `0`, whose slot — never written in any reachable state —
holds the zero `Round`, whose default status (the zero enum value) is
`OPEN`, failing the `CALCULATING` check.  Moreover the raffle never
deletes a request-index entry on settlement (third conjunct), so this
status check is its entire replay/unknown-request protection. -/
theorem C10_raffle_unknown_request (cfg : RaffleCfg) (w : RaffleWorld)
    (sender requestId randomness now : Nat) (accepts : Nat → Bool) :
    Round.default.state = .OPEN ∧
    (w.raffle.requestIdToRoundId.get 0 requestId = 0 →
      w.raffle.rounds.get Round.default 0 = Round.default →
      sender = cfg.provider →
      Raffle.fulfillRandomness cfg w sender requestId randomness now accepts
        = .error .AlreadySettled) ∧
    (∀ w', Raffle.fulfillRandomness cfg w sender requestId randomness now accepts
        = .ok w' →
      w'.raffle.requestIdToRoundId = w.raffle.requestIdToRoundId) := by
  refine ⟨rfl, ?_, ?_⟩
  · intro hreq h0 hs
    unfold Raffle.fulfillRandomness
    rw [if_neg (by simp [hs])]
    dsimp only
    rw [if_pos (by rw [hreq, h0]; simp [Round.default])]
  · intro w' h
    exact (Raffle.fulfill_ok_round h).1

theorem C10_raffle_unknown_request_witness :
    Raffle.fulfillRandomness witnessRaffleCfg witnessRaffleWorld0 1 99 0 0
      (fun _ => true) = .error .AlreadySettled :=
  (C10_raffle_unknown_request witnessRaffleCfg witnessRaffleWorld0 1 99 0 0
    (fun _ => true)).2.1 (by decide) (by decide) (by decide)

/-- C1: settlement succeeds at most once per request identifier.  After a
successful `DiceGame.fulfillRandomness` for request `requestId`, any
later provider call with the same identifier — whatever the randomness,
treasury state or balances — reverts with `BetNotFound` (the index entry
was deleted); after a successful `Raffle.fulfillRandomness`, any later
provider call with the same identifier reverts with `AlreadySettled`
(the settled round is no longer `CALCULATING`).  An `.error` result is a
full revert in this embedding, so no state change and no fund transfer
occurs on the second call. -/
theorem C1_single_settlement :
    (∀ (cfg : DiceCfg) (w w' : DiceWorld) (sender requestId randomness : Nat)
        (accepts : Nat → Bool) (t2 : Treasury) (bal2 : Nat)
        (randomness' : Nat) (accepts' : Nat → Bool),
      DiceGame.fulfillRandomness cfg w sender requestId randomness accepts
          = .ok w' →
      DiceGame.fulfillRandomness cfg
          { game := w'.game, treasury := t2, gameBal := bal2 }
          cfg.provider requestId randomness' accepts' = .error .BetNotFound) ∧
    (∀ (cfg : RaffleCfg) (w w' : RaffleWorld)
        (sender requestId randomness now : Nat) (accepts : Nat → Bool)
        (t2 : Treasury) (bal2 : Nat) (randomness' now' : Nat)
        (accepts' : Nat → Bool),
      Raffle.fulfillRandomness cfg w sender requestId randomness now accepts
          = .ok w' →
      Raffle.fulfillRandomness cfg
          { raffle := w'.raffle, treasury := t2, raffleBal := bal2 }
          cfg.provider requestId randomness' now' accepts'
        = .error .AlreadySettled) := by
  constructor
  · intro cfg w w' sender requestId randomness accepts t2 bal2 r' a' h
    have hfr := DiceGame.fulfill_ok_reqMap h
    simp only [DiceGame.fulfillRandomness]
    rw [if_neg (by simp)]
    rw [hfr, Store.get_set_same, if_pos rfl]
  · intro cfg w w' sender requestId randomness now accepts t2 bal2 r' n' a' h
    obtain ⟨hmap, hstate⟩ := Raffle.fulfill_ok_round h
    have hne : (w'.raffle.rounds.get Round.default
        (w'.raffle.requestIdToRoundId.get 0 requestId)).state ≠ .CALCULATING := by
      rw [hmap]
      rcases hstate with hs | hs <;> rw [hs] <;> simp
    simp only [Raffle.fulfillRandomness]
    rw [if_neg (by simp)]
    rw [if_pos hne]

/-- `witnessRaffleWorld1` after the trigger fires at time `11` with
randomness request id `5` (round 1 now `CALCULATING`). -/
def witnessRaffleWorld2 : RaffleWorld :=
  { witnessRaffleWorld1 with
      raffle := (Raffle.performUpkeep witnessRaffleCfg witnessRaffleWorld1.raffle
        11 5).toOption.getD witnessRaffleWorld1.raffle }

/-- `witnessRaffleWorld2` settled with randomness `4` at time `12`:
player `7` wins the pool and round 2 opens. -/
def witnessRaffleOut : RaffleWorld :=
  (Raffle.fulfillRandomness witnessRaffleCfg witnessRaffleWorld2 1 5 4 12
    (fun _ => true)).toOption.getD witnessRaffleWorld2

theorem C1_single_settlement_witness :
    DiceGame.fulfillRandomness witnessDiceCfg
        { game := witnessDiceOut.game, treasury := witnessTreasury, gameBal := 0 }
        1 5 9 (fun _ => true) = .error .BetNotFound ∧
    Raffle.fulfillRandomness witnessRaffleCfg
        { raffle := witnessRaffleOut.raffle, treasury := witnessTreasury,
          raffleBal := 0 }
        1 5 9 13 (fun _ => true) = .error .AlreadySettled :=
  ⟨C1_single_settlement.1 witnessDiceCfg witnessDiceWorld witnessDiceOut 1 5 2
      (fun _ => true) witnessTreasury 0 9 (fun _ => true) (by decide),
   C1_single_settlement.2 witnessRaffleCfg witnessRaffleWorld2 witnessRaffleOut
      1 5 4 12 (fun _ => true) witnessTreasury 0 9 13 (fun _ => true) (by decide)⟩

/-- C4: a successful `Raffle.fulfillRandomness` with randomness `r` for
the current round (hypotheses `hcur`/`hnext` hold in every reachable
state by the C5 invariant: the request maps to the current round and the
next round slot is untouched): the round was `CALCULATING` with its
entrant list frozen, the recorded winner is `players[r % |players|]`,
the round becomes `SETTLED`, the full pool leaves the raffle contract
and moves through the treasury to the winner — a `Deposited` (transfer
to treasury) followed by a `PaidOut` (explicit payout call) of exactly
the pool, leaving the treasury balance unchanged — and, in the same
transaction, round `id+1` is created `OPEN` with an empty entrant list,
zero pool and start time `now`. -/
theorem C4_raffle_settlement (cfg : RaffleCfg) (w w' : RaffleWorld)
    (sender requestId randomness now : Nat) (accepts : Nat → Bool)
    (hcur : w.raffle.requestIdToRoundId.get 0 requestId
        = w.raffle.currentRoundId)
    (hnext : w.raffle.rounds.get Round.default (w.raffle.currentRoundId + 1)
        = Round.default)
    (hnow : now < U64)
    (h : Raffle.fulfillRandomness cfg w sender requestId randomness now accepts
           = .ok w') :
    (w.raffle.rounds.get Round.default w.raffle.currentRoundId).state
        = .CALCULATING ∧
    (w.raffle.rounds.get Round.default w.raffle.currentRoundId).players.get?
        (randomness
          % (w.raffle.rounds.get Round.default
              w.raffle.currentRoundId).players.length)
      = some ((w'.raffle.rounds.get Round.default
          w.raffle.currentRoundId).winner) ∧
    (w'.raffle.rounds.get Round.default w.raffle.currentRoundId).state
        = .SETTLED ∧
    w'.raffleBal
        + (w.raffle.rounds.get Round.default w.raffle.currentRoundId).prizePool
      = w.raffleBal ∧
    w'.treasury.balance = w.treasury.balance ∧
    w'.treasury.events
      = .PaidOut cfg.self
          ((w'.raffle.rounds.get Round.default w.raffle.currentRoundId).winner)
          ((w.raffle.rounds.get Round.default
            w.raffle.currentRoundId).prizePool)
        :: .Deposited cfg.self
             ((w.raffle.rounds.get Round.default
               w.raffle.currentRoundId).prizePool)
        :: w.treasury.events ∧
    w'.raffle.currentRoundId = w.raffle.currentRoundId + 1 ∧
    w'.raffle.rounds.get Round.default (w.raffle.currentRoundId + 1)
      = { roundId := w.raffle.currentRoundId + 1, state := .OPEN,
          startTime := now, players := [], winner := 0, prizePool := 0 } := by
  simp only [Raffle.fulfillRandomness] at h
  split at h
  · exact absurd h (by simp)
  split at h
  · exact absurd h (by simp)
  next hstate =>
  split at h
  · exact absurd h (by simp)
  next currentWinner hwin =>
  split at h
  · exact absurd h (by simp)
  next hbal =>
  split at h
  · exact absurd h (by simp)
  next t2 hpay =>
  obtain ⟨hple, ht2⟩ := Treasury.payout_ok hpay
  simp only [Except.ok.injEq] at h
  subst h
  subst ht2
  rw [hcur] at hwin hstate hple hbal ⊢
  push_neg at hstate
  dsimp only
  have hcc : w.raffle.currentRoundId ≠ w.raffle.currentRoundId + 1 := by omega
  rw [Store.get_set_ne _ _ _ _ _ hcc, Store.get_set_same, Store.get_set_same]
  rw [Store.get_set_ne _ _ _ _ _ (by omega : w.raffle.currentRoundId + 1
    ≠ w.raffle.currentRoundId), hnext]
  refine ⟨hstate, hwin, rfl, by omega, ?_, ?_, rfl, ?_⟩
  · simp only [Treasury.receiveEth]
    omega
  · simp [Treasury.receiveEth]
  · rw [Nat.mod_eq_of_lt hnow]
    simp [Round.default]

theorem C4_raffle_settlement_witness :
    (witnessRaffleWorld2.raffle.rounds.get Round.default
        witnessRaffleWorld2.raffle.currentRoundId).players.get?
        (4 % (witnessRaffleWorld2.raffle.rounds.get Round.default
            witnessRaffleWorld2.raffle.currentRoundId).players.length)
      = some ((witnessRaffleOut.raffle.rounds.get Round.default
          witnessRaffleWorld2.raffle.currentRoundId).winner) ∧
    witnessRaffleOut.raffle.currentRoundId
      = witnessRaffleWorld2.raffle.currentRoundId + 1 :=
  have hc := C4_raffle_settlement witnessRaffleCfg witnessRaffleWorld2
    witnessRaffleOut 1 5 4 12 (fun _ => true) (by decide) (by decide)
    (by decide) (by decide)
  ⟨hc.2.1, hc.2.2.2.2.2.2.1⟩

/-- C5: in every reachable state of the raffle, at most one created round
(ids `1 .. s_currentRoundId`) is `OPEN` or `CALCULATING`
(awaiting randomness) and it is exactly the round the
`s_currentRoundId` pointer refers to; every round with a smaller id is
`SETTLED`; and no round beyond the current one has been created (its
slot is still the zero value), i.e. a new round only comes into
existence through settlement of the previous one. -/
theorem C5_raffle_single_active_round (cfg : RaffleCfg) (w : RaffleWorld)
    (h : Raffle.Reach cfg w) :
    1 ≤ w.raffle.currentRoundId ∧
    (w.raffle.rounds.get Round.default w.raffle.currentRoundId).roundId
        = w.raffle.currentRoundId ∧
    ((w.raffle.rounds.get Round.default w.raffle.currentRoundId).state = .OPEN ∨
     (w.raffle.rounds.get Round.default w.raffle.currentRoundId).state
        = .CALCULATING) ∧
    (∀ i, 1 ≤ i → i < w.raffle.currentRoundId →
      (w.raffle.rounds.get Round.default i).state = .SETTLED) ∧
    (∀ i, 1 ≤ i → i ≤ w.raffle.currentRoundId →
      ((w.raffle.rounds.get Round.default i).state = .OPEN ∨
       (w.raffle.rounds.get Round.default i).state = .CALCULATING) →
      i = w.raffle.currentRoundId) ∧
    (∀ i, w.raffle.currentRoundId < i →
      w.raffle.rounds.get Round.default i = Round.default) := by
  obtain ⟨h1, h2, h3, h4, h5, h6, h7⟩ := Raffle.inv_reach h
  refine ⟨h1, h2, h3, fun i hi hlt => (h4 i hi hlt).1, ?_, h5⟩
  intro i hi hle hoc
  by_contra hne
  have hlt : i < w.raffle.currentRoundId := by omega
  have hs := (h4 i hi hlt).1
  rcases hoc with hoc | hoc <;> rw [hs] at hoc <;> exact absurd hoc (by simp)

theorem C5_raffle_single_active_round_witness :
    1 ≤ witnessRaffleWorld0.raffle.currentRoundId ∧
    (witnessRaffleWorld0.raffle.rounds.get Round.default
        witnessRaffleWorld0.raffle.currentRoundId).roundId
      = witnessRaffleWorld0.raffle.currentRoundId :=
  have hc := C5_raffle_single_active_round witnessRaffleCfg witnessRaffleWorld0
    (Raffle.Reach.init 0 witnessTreasury)
  ⟨hc.1, hc.2.1⟩
